import Mathlib

/-!
Shallow embedding of `src/prometheus_mcp_server/middleware.py` and proofs
about its two middleware classes:

* `StripUnknownArgumentsMiddleware.on_call_tool` (lines 18-36): drops
  invocation arguments whose keys are not declared by the target tool,
  logging the unknown keys; any internal exception is caught and logged,
  and the call proceeds with the original arguments.
* `ResponseMetadataMiddleware.on_call_tool` / `_time_operation`
  (lines 46-80): times the delegated call and, on success with a non-null
  result, inserts package-identity and timing entries into the result's
  `meta` mapping; exceptions of the delegated call are re-raised.

Python dictionaries are modelled as association lists (`List (String × _)`)
with unique keys coming from real dicts; insertion (`d[k] = v`) replaces
the first binding of the key in place or appends at the end, exactly the
Python dict semantics. Exceptions are modelled with `Except`; the wall
clock (`time.perf_counter`) is modelled by two rational timestamps
`t0 t1` passed explicitly, with monotonicity (`t0 ≤ t1`) a hypothesis
where the spec needs it.
-/

namespace PrometheusMcp

/-- Line 10: `PACKAGE_NAME = "prometheus-mcp-server"`. -/
def PACKAGE_NAME : String := "prometheus-mcp-server"

/-- The surface of `context.message` the middleware reads and writes:
the tool name and the argument mapping (`None`/empty dict both become
the empty list, matching Python truthiness at line 22). -/
structure Message (V : Type) where
  name : String
  arguments : List (String × V)
deriving Repr, DecidableEq

/-- The surface of the `context` object: whether `context.fastmcp_context`
is truthy (line 22) and the message. -/
structure CallContext (V : Type) where
  fastmcpAvailable : Bool
  message : Message V
deriving Repr, DecidableEq

/-- The surface of a registry tool descriptor: line 24 reads
`tool.parameters.get("properties", None)` and line 25 only its `.keys()`,
so we record the optional list of declared parameter names. A falsy
(`None` or empty) properties dict and `some []` both yield the empty name
set, so collapsing `{}` to `some []` is behaviour-preserving. -/
structure ToolDescriptor where
  properties : Option (List String)
deriving Repr, DecidableEq

/-- What `StripUnknownArgumentsMiddleware.on_call_tool` logs: the
`logger.info` of unknown argument keys (line 29) and the `logger.error`
of a caught exception (lines 32-35). -/
structure StripLog (Err : Type) where
  unknownLogged : Option (List String)
  errorLogged : Option Err
deriving Repr, DecidableEq

/-- Line 26: `{k: v for k, v in context.message.arguments.items() if k in
expected_args_names}` — restriction of the mapping to declared keys,
order and values unchanged. -/
def filterArgs {V : Type} (expected : List String) (args : List (String × V)) :
    List (String × V) :=
  args.filter (fun kv => expected.contains kv.1)

/-- Line 27: `set(context.message.arguments.keys()).difference(expected_args_names)`
— the supplied keys not declared by the tool (a list; dict keys are unique). -/
def unknownArgs {V : Type} (expected : List String) (args : List (String × V)) :
    List String :=
  (args.map Prod.fst).filter (fun k => !expected.contains k)

/-- Lines 20-35 of `StripUnknownArgumentsMiddleware.on_call_tool`: the
`try`/`except` block that mutates `context.message.arguments` in place.
The registry lookup `await context.fastmcp_context.fastmcp.get_tool(...)`
(line 23) is the fallible step, modelled as `getTool` returning `Except`;
if it raises, the `except` branch (lines 31-35) logs the error and leaves
the context untouched. Returns the (possibly mutated) context and the log. -/
def stripTryExcept {V Err : Type} (getTool : String → Except Err ToolDescriptor)
    (ctx : CallContext V) : CallContext V × StripLog Err :=
  if ctx.fastmcpAvailable && !ctx.message.arguments.isEmpty then
    match getTool ctx.message.name with
    | Except.ok tool =>
      let toolArgs := tool.properties
      let expected := match toolArgs with
        | some names => names
        | none => []
      let filtered := filterArgs expected ctx.message.arguments
      let unknown := unknownArgs expected ctx.message.arguments
      ({ ctx with message := { ctx.message with arguments := filtered } },
       { unknownLogged := if unknown.isEmpty then none else some unknown,
         errorLogged := none })
    | Except.error e =>
      (ctx, { unknownLogged := none, errorLogged := some e })
  else
    (ctx, { unknownLogged := none, errorLogged := none })

/-- Lines 18-36 of `StripUnknownArgumentsMiddleware.on_call_tool`: run the
`try`/`except` filtering block, then `return await call_next(context)`
(line 36) on whatever context that left behind. The continuation's result
is returned unmodified, paired with the filter's log. -/
def stripOnCallTool {V Err R : Type} (getTool : String → Except Err ToolDescriptor)
    (callNext : CallContext V → R) (ctx : CallContext V) : R × StripLog Err :=
  let step := stripTryExcept getTool ctx
  (callNext step.1, step.2)

/-- Line 43: `PACKAGE_METADATA_KEY = "_package_metadata"`. -/
def PACKAGE_METADATA_KEY : String := "_package_metadata"

/-- Line 44: `TIMING_METADATA_KEY = "_timing_metadata"`. -/
def TIMING_METADATA_KEY : String := "_timing_metadata"

/-- A value stored in a response's `meta` dict: the package-identity dict
`{"name": ..., "version": ...}` (lines 70-73), the timing dict
`{"tool_response_time_ms": ...}` (lines 74-76), or any pre-existing entry
(payload type `A`). -/
inductive MetaEntry (A : Type) where
  | pkg (name version : String)
  | timing (ms : ℚ)
  | other (a : A)
deriving Repr, DecidableEq

/-- The surface of a tool-call result the annotator touches: an arbitrary
payload (everything it never reads) and the optional `meta` mapping
(`getattr(result, "meta", None)`, line 68). -/
structure ToolCallResult (P A : Type) where
  payload : P
  meta : Option (List (String × MetaEntry A))
deriving Repr, DecidableEq

/-- Python dict assignment `d[k] = v`: replace the first binding of `k`
in place, or append `(k, v)` when `k` is absent. -/
def dictSet {α : Type} (k : String) (v : α) : List (String × α) → List (String × α)
  | [] => [(k, v)]
  | p :: rest => if p.1 == k then (k, v) :: rest else p :: dictSet k v rest

/-- Python dict lookup `d.get(k)`: the value bound to the first occurrence
of `k`, if any. -/
def dictGet {α : Type} (k : String) : List (String × α) → Option α
  | [] => none
  | p :: rest => if p.1 == k then some p.2 else dictGet k rest

/-- Lines 46-59, `ResponseMetadataMiddleware._time_operation`: record
`start_time`, delegate, and return the result paired with
`(perf_counter() - start_time) * 1000`; on exception, log the elapsed time
at warning level and `raise` the same exception (lines 54-59). `t0` and
`t1` are the two `time.perf_counter()` readings. -/
def timeOperation {C E R : Type} (callNext : C → Except E R) (ctx : C)
    (t0 t1 : ℚ) : Except E (R × ℚ) :=
  match callNext ctx with
  | Except.ok result => Except.ok (result, (t1 - t0) * 1000)
  | Except.error e => Except.error e

/-- Lines 61-80, `ResponseMetadataMiddleware.on_call_tool`: time the
delegated call; propagate its exception; return `None` unchanged
(lines 66-67); otherwise initialize `result.meta` to `{}` if absent
(lines 68-69), then set the package-identity entry (lines 70-73) and the
timing entry (lines 74-76), mutating only `meta`. `pkgName` and
`pkgVersion` are the class-level
`importlib_metadata(PACKAGE_NAME)["name" / "version"]` values (line 42). -/
def responseOnCallTool {C E P A : Type} (pkgName pkgVersion : String)
    (callNext : C → Except E (Option (ToolCallResult P A))) (ctx : C)
    (t0 t1 : ℚ) : Except E (Option (ToolCallResult P A)) :=
  match timeOperation callNext ctx t0 t1 with
  | Except.error e => Except.error e
  | Except.ok (resultOpt, durationMs) =>
    match resultOpt with
    | none => Except.ok none
    | some result =>
      let meta0 := match result.meta with
        | some m => m
        | none => []
      let meta1 := dictSet PACKAGE_METADATA_KEY
        (MetaEntry.pkg pkgName pkgVersion) meta0
      let meta2 := dictSet TIMING_METADATA_KEY
        (MetaEntry.timing durationMs) meta1
      Except.ok (some { result with meta := some meta2 })

/-! Helper lemmas about the dict operations. -/

/-- Setting a key then reading it back yields the new value. -/
theorem dictGet_dictSet_self {α : Type} (k : String) (v : α)
    (d : List (String × α)) : dictGet k (dictSet k v d) = some v := by
  induction d with
  | nil => simp [dictSet, dictGet]
  | cons p rest ih =>
    by_cases h : p.1 = k
    · simp [dictSet, dictGet, h]
    · simp [dictSet, dictGet, h, ih]

/-- Setting one key leaves the lookup of any other key unchanged. -/
theorem dictGet_dictSet_ne {α : Type} (k k2 : String) (v : α)
    (d : List (String × α)) (h : k ≠ k2) :
    dictGet k (dictSet k2 v d) = dictGet k d := by
  induction d with
  | nil => simp [dictSet, dictGet, Ne.symm h]
  | cons p rest ih =>
    by_cases hp : p.1 = k2
    · simp [dictSet, dictGet, hp, Ne.symm h]
    · simp [dictSet, dictGet, hp, ih]

/-! The claims. -/

/-- C1: for an invocation with a non-empty argument mapping, an available
context, and a successful registry lookup returning a tool declaring
parameter set `S`, the filter replaces the argument mapping with exactly
the restriction of the original mapping to keys in `S` (values unchanged),
and the unknown-argument log is exactly the supplied keys outside `S`,
emitted precisely when that set is non-empty. -/
theorem strip_filters_to_declared {V Err : Type}
    (getTool : String → Except Err ToolDescriptor) (ctx : CallContext V)
    (tool : ToolDescriptor) (S : List String)
    (hav : ctx.fastmcpAvailable = true)
    (hne : ctx.message.arguments ≠ [])
    (hget : getTool ctx.message.name = Except.ok tool)
    (hS : tool.properties = some S) :
    (stripTryExcept getTool ctx).1.message.arguments
        = filterArgs S ctx.message.arguments
    ∧ (∀ k v, (k, v) ∈ filterArgs S ctx.message.arguments
        ↔ (k, v) ∈ ctx.message.arguments ∧ k ∈ S)
    ∧ (stripTryExcept getTool ctx).2.unknownLogged
        = (if (unknownArgs S ctx.message.arguments).isEmpty then none
           else some (unknownArgs S ctx.message.arguments))
    ∧ (∀ k, k ∈ unknownArgs S ctx.message.arguments
        ↔ k ∈ ctx.message.arguments.map Prod.fst ∧ k ∉ S) := by
  have hne2 : ctx.message.arguments.isEmpty = false := by
    cases h : ctx.message.arguments <;> simp_all
  refine ⟨?_, ?_, ?_, ?_⟩
  · simp [stripTryExcept, hav, hne2, hget, hS]
  · intro k v
    simp [filterArgs, List.mem_filter, List.contains, List.elem_iff]
  · simp [stripTryExcept, hav, hne2, hget, hS]
  · intro k
    simp [unknownArgs, List.mem_filter, List.contains, List.elem_iff]

/-- Witness for C1 at the spec's example: a tool accepting parameters
a and b, an invocation with arguments a, b, c; filtering yields a, b and
logs c as unknown. -/
theorem strip_filters_to_declared_witness :
    (stripTryExcept
        (fun _ : String =>
          (Except.ok { properties := some ["a", "b"] } : Except Unit ToolDescriptor))
        ⟨true, ⟨ "query", [("a", 1), ("b", 2), ("c", 3)]⟩⟩).1.message.arguments
      = [("a", 1), ("b", 2)]
    ∧ (stripTryExcept
        (fun _ : String =>
          (Except.ok { properties := some ["a", "b"] } : Except Unit ToolDescriptor))
        ⟨true, ⟨ "query", [("a", 1), ("b", 2), ("c", 3)]⟩⟩).2.unknownLogged
      = some ["c"] := by
  have h := strip_filters_to_declared
    (fun _ : String =>
      (Except.ok { properties := some ["a", "b"] } : Except Unit ToolDescriptor))
    (⟨true, ⟨ "query", [("a", 1), ("b", 2), ("c", 3)]⟩⟩ : CallContext Nat)
    { properties := some ["a", "b"] } ["a", "b"] rfl (by decide) rfl rfl
  refine ⟨?_, ?_⟩
  · rw [h.1]; decide
  · rw [h.2.2.1]; decide

/-- C2: when the registry lookup raises, the exception is caught: the
context handed to the continuation is exactly the original one (arguments
untouched), the continuation is still invoked and its value returned, and
the filter's failure surfaces only in the error log, never as a propagated
exception (the result type is the continuation's, not an `Except`). -/
theorem strip_error_keeps_args {V Err R : Type}
    (getTool : String → Except Err ToolDescriptor)
    (callNext : CallContext V → R) (ctx : CallContext V) (e : Err)
    (hget : getTool ctx.message.name = Except.error e) :
    (stripTryExcept getTool ctx).1 = ctx
    ∧ stripOnCallTool getTool callNext ctx
        = (callNext ctx, (stripTryExcept getTool ctx).2) := by
  have h1 : (stripTryExcept getTool ctx).1 = ctx := by
    by_cases hg : (ctx.fastmcpAvailable && !ctx.message.arguments.isEmpty) = true
    · simp [stripTryExcept, hg, hget]
    · simp [stripTryExcept, hg]
  refine ⟨h1, ?_⟩
  rw [stripOnCallTool, h1]

/-- Witness for C2: a lookup that fails leaves the single supplied
argument in place, logs the error, and the continuation still runs on the
original context. -/
theorem strip_error_keeps_args_witness :
    (stripTryExcept
        (fun _ : String => (Except.error "lookup failed" : Except String ToolDescriptor))
        (⟨true, ⟨ "q", [("a", 1)]⟩⟩ : CallContext Nat)).1
      = ⟨true, ⟨ "q", [("a", 1)]⟩⟩
    ∧ stripOnCallTool
        (fun _ : String => (Except.error "lookup failed" : Except String ToolDescriptor))
        (fun c : CallContext Nat => c.message.arguments)
        ⟨true, ⟨ "q", [("a", 1)]⟩⟩
      = ([("a", 1)], { unknownLogged := none, errorLogged := some "lookup failed" }) := by
  have h := strip_error_keeps_args
    (fun _ : String => (Except.error "lookup failed" : Except String ToolDescriptor))
    (fun c : CallContext Nat => c.message.arguments)
    ⟨true, ⟨ "q", [("a", 1)]⟩⟩ "lookup failed" rfl
  refine ⟨h.1, ?_⟩
  rw [h.2]; decide

/-- C6: for an invocation with an empty argument mapping, or one whose
host context is unavailable, the filter is a no-op: the context reaches
the continuation untouched, nothing is logged, and the outcome does not
depend on the registry lookup function at all (no lookup is performed). -/
theorem strip_noop_when_guard_fails {V Err R : Type}
    (getTool getTool2 : String → Except Err ToolDescriptor)
    (callNext : CallContext V → R) (ctx : CallContext V)
    (h : ctx.message.arguments = [] ∨ ctx.fastmcpAvailable = false) :
    stripTryExcept getTool ctx
        = (ctx, { unknownLogged := none, errorLogged := none })
    ∧ stripOnCallTool getTool callNext ctx
        = (callNext ctx, { unknownLogged := none, errorLogged := none })
    ∧ stripTryExcept getTool ctx = stripTryExcept getTool2 ctx := by
  have hg : (ctx.fastmcpAvailable && !ctx.message.arguments.isEmpty) = false := by
    rcases h with h | h <;> simp [h]
  refine ⟨?_, ?_, ?_⟩ <;> simp [stripTryExcept, stripOnCallTool, hg]

/-- Witness for C6: an invocation with no arguments passes through
untouched regardless of which lookup function is installed. -/
theorem strip_noop_when_guard_fails_witness :
    stripTryExcept
        (fun _ : String => (Except.error "unused" : Except String ToolDescriptor))
        (⟨true, ⟨ "q", []⟩⟩ : CallContext Nat)
      = (⟨true, ⟨ "q", []⟩⟩, { unknownLogged := none, errorLogged := none })
    ∧ stripOnCallTool
        (fun _ : String => (Except.error "unused" : Except String ToolDescriptor))
        (fun c : CallContext Nat => c.message.name)
        ⟨true, ⟨ "q", []⟩⟩
      = ("q", { unknownLogged := none, errorLogged := none })
    ∧ stripTryExcept
        (fun _ : String => (Except.error "unused" : Except String ToolDescriptor))
        (⟨true, ⟨ "q", []⟩⟩ : CallContext Nat)
      = stripTryExcept
          (fun _ : String => (Except.ok { properties := some ["z"] } :
            Except String ToolDescriptor))
          ⟨true, ⟨ "q", []⟩⟩ :=
  strip_noop_when_guard_fails
    (fun _ : String => (Except.error "unused" : Except String ToolDescriptor))
    (fun _ : String => (Except.ok { properties := some ["z"] } :
      Except String ToolDescriptor))
    (fun c : CallContext Nat => c.message.name)
    ⟨true, ⟨ "q", []⟩⟩ (Or.inl rfl)

/-- C7: for an invocation with non-empty arguments whose looked-up tool
has no parameter-properties structure (`properties = none`), the declared
parameter set is treated as empty and the argument mapping is replaced by
the empty mapping: every supplied argument is stripped. -/
theorem strip_missing_schema_strips_all {V Err : Type}
    (getTool : String → Except Err ToolDescriptor) (ctx : CallContext V)
    (tool : ToolDescriptor)
    (hav : ctx.fastmcpAvailable = true)
    (hne : ctx.message.arguments ≠ [])
    (hget : getTool ctx.message.name = Except.ok tool)
    (hprops : tool.properties = none) :
    (stripTryExcept getTool ctx).1.message.arguments = [] := by
  have hne2 : ctx.message.arguments.isEmpty = false := by
    cases h : ctx.message.arguments <;> simp_all
  simp [stripTryExcept, hav, hne2, hget, hprops, filterArgs, List.contains]

/-- Witness for C7: a schema-less tool strips the one supplied argument. -/
theorem strip_missing_schema_strips_all_witness :
    (stripTryExcept
        (fun _ : String => (Except.ok { properties := none } : Except Unit ToolDescriptor))
        (⟨true, ⟨ "q", [("x", 5)]⟩⟩ : CallContext Nat)).1.message.arguments = [] :=
  strip_missing_schema_strips_all
    (fun _ : String => (Except.ok { properties := none } : Except Unit ToolDescriptor))
    ⟨true, ⟨ "q", [("x", 5)]⟩⟩ { properties := none } rfl (by decide) rfl rfl

/-- C9: the filter's argument transformation is idempotent for a fixed
declared parameter set: filtering twice equals filtering once, and a
second pass finds no unknown arguments to log. -/
theorem strip_filter_idempotent {V : Type} (S : List String)
    (args : List (String × V)) :
    filterArgs S (filterArgs S args) = filterArgs S args
    ∧ unknownArgs S (filterArgs S args) = [] := by
  constructor
  · simp [filterArgs, List.filter_filter]
  · rw [unknownArgs, List.filter_eq_nil_iff]
    intro k hk
    rw [List.mem_map] at hk
    obtain ⟨kv, hmem, rfl⟩ := hk
    rw [filterArgs, List.mem_filter] at hmem
    simp
    exact List.elem_iff.mp hmem.2

/-- C10: the filter invokes the continuation exactly once, on the context
the try/except block produced, and returns the continuation's result
unmodified on every path; a counting continuation observes exactly one
invocation. -/
theorem strip_invokes_continuation_once {V Err R : Type}
    (getTool : String → Except Err ToolDescriptor)
    (callNext : CallContext V → R) (ctx : CallContext V) :
    stripOnCallTool getTool callNext ctx
      = (callNext (stripTryExcept getTool ctx).1, (stripTryExcept getTool ctx).2)
    ∧ (stripOnCallTool getTool (fun _ => (1 : Nat)) ctx).1 = 1 :=
  ⟨rfl, rfl⟩

/-- C3: when the delegated call raises, the annotator propagates that
exact exception value to the caller, and no response exists to receive
metadata (the whole result is the propagated error). -/
theorem response_propagates_error {C E P A : Type} (pkgName pkgVersion : String)
    (callNext : C → Except E (Option (ToolCallResult P A))) (ctx : C)
    (t0 t1 : ℚ) (e : E)
    (h : callNext ctx = Except.error e) :
    responseOnCallTool pkgName pkgVersion callNext ctx t0 t1 = Except.error e := by
  simp [responseOnCallTool, timeOperation, h]

/-- Witness for C3: a failing call's error value comes back verbatim. -/
theorem response_propagates_error_witness :
    responseOnCallTool "prometheus-mcp-server" "1.0.0"
        (fun _ : Unit =>
          (Except.error "boom" : Except String (Option (ToolCallResult Unit Unit))))
        () 0 1
      = Except.error "boom" :=
  response_propagates_error "prometheus-mcp-server" "1.0.0"
    (fun _ : Unit =>
      (Except.error "boom" : Except String (Option (ToolCallResult Unit Unit))))
    () 0 1 "boom" rfl

/-- C4: when the delegated call succeeds with a non-null result and the
end timestamp is not before the start timestamp (the monotonic clock
guarantee), the annotated result's metadata map holds the
package-identity entry with the package name and version, and a timing
entry whose elapsed-milliseconds value is non-negative. -/
theorem response_adds_metadata {C E P A : Type} (pkgName pkgVersion : String)
    (callNext : C → Except E (Option (ToolCallResult P A))) (ctx : C)
    (t0 t1 : ℚ) (r : ToolCallResult P A)
    (hcall : callNext ctx = Except.ok (some r)) (ht : t0 ≤ t1) :
    ∃ m, responseOnCallTool pkgName pkgVersion callNext ctx t0 t1
            = Except.ok (some { r with meta := some m })
      ∧ dictGet PACKAGE_METADATA_KEY m = some (MetaEntry.pkg pkgName pkgVersion)
      ∧ ∃ d, dictGet TIMING_METADATA_KEY m = some (MetaEntry.timing d) ∧ 0 ≤ d := by
  refine ⟨dictSet TIMING_METADATA_KEY (MetaEntry.timing ((t1 - t0) * 1000))
      (dictSet PACKAGE_METADATA_KEY (MetaEntry.pkg pkgName pkgVersion)
        (match r.meta with | some m0 => m0 | none => [])), ?_, ?_, ?_⟩
  · simp [responseOnCallTool, timeOperation, hcall]
  · rw [dictGet_dictSet_ne _ _ _ _ (by decide)]
    exact dictGet_dictSet_self _ _ _
  · exact ⟨(t1 - t0) * 1000, dictGet_dictSet_self _ _ _,
      mul_nonneg (by linarith) (by norm_num)⟩

/-- Witness for C4: a successful call with no prior metadata gets both
entries, with a non-negative elapsed value. -/
theorem response_adds_metadata_witness :
    ∃ m, responseOnCallTool "prometheus-mcp-server" "1.0.0"
          (fun _ : Unit =>
            (Except.ok (some ⟨(), none⟩) :
              Except String (Option (ToolCallResult Unit Unit))))
          () 0 1
        = Except.ok (some { payload := (), meta := some m })
      ∧ dictGet PACKAGE_METADATA_KEY m
          = some (MetaEntry.pkg "prometheus-mcp-server" "1.0.0")
      ∧ ∃ d, dictGet TIMING_METADATA_KEY m = some (MetaEntry.timing d) ∧ 0 ≤ d :=
  response_adds_metadata "prometheus-mcp-server" "1.0.0"
    (fun _ : Unit =>
      (Except.ok (some ⟨(), none⟩) :
        Except String (Option (ToolCallResult Unit Unit))))
    () 0 1 ⟨(), none⟩ rfl (by norm_num)

/-- C5: when the delegated call returns no result object, the annotator
returns that same absence unchanged, touching no metadata. -/
theorem response_none_passthrough {C E P A : Type} (pkgName pkgVersion : String)
    (callNext : C → Except E (Option (ToolCallResult P A))) (ctx : C)
    (t0 t1 : ℚ)
    (h : callNext ctx = Except.ok none) :
    responseOnCallTool pkgName pkgVersion callNext ctx t0 t1 = Except.ok none := by
  simp [responseOnCallTool, timeOperation, h]

/-- Witness for C5: a null result passes through unchanged. -/
theorem response_none_passthrough_witness :
    responseOnCallTool "prometheus-mcp-server" "1.0.0"
        (fun _ : Unit =>
          (Except.ok none : Except String (Option (ToolCallResult Unit Unit))))
        () 0 1
      = Except.ok none :=
  response_none_passthrough "prometheus-mcp-server" "1.0.0"
    (fun _ : Unit =>
      (Except.ok none : Except String (Option (ToolCallResult Unit Unit))))
    () 0 1 rfl

/-- C8: when the result already carries a metadata map, annotation
preserves the lookup of every key other than the package-metadata key and
the timing-metadata key: only those two fixed keys are added or
overwritten. -/
theorem response_preserves_other_meta {C E P A : Type} (pkgName pkgVersion : String)
    (callNext : C → Except E (Option (ToolCallResult P A))) (ctx : C)
    (t0 t1 : ℚ) (r : ToolCallResult P A) (m0 : List (String × MetaEntry A))
    (k : String)
    (hcall : callNext ctx = Except.ok (some r)) (hmeta : r.meta = some m0)
    (hk1 : k ≠ PACKAGE_METADATA_KEY) (hk2 : k ≠ TIMING_METADATA_KEY) :
    ∃ m, responseOnCallTool pkgName pkgVersion callNext ctx t0 t1
            = Except.ok (some { r with meta := some m })
      ∧ dictGet k m = dictGet k m0 := by
  refine ⟨dictSet TIMING_METADATA_KEY (MetaEntry.timing ((t1 - t0) * 1000))
      (dictSet PACKAGE_METADATA_KEY (MetaEntry.pkg pkgName pkgVersion) m0), ?_, ?_⟩
  · simp [responseOnCallTool, timeOperation, hcall, hmeta]
  · rw [dictGet_dictSet_ne _ _ _ _ hk2, dictGet_dictSet_ne _ _ _ _ hk1]

/-- Witness for C8: a pre-existing entry under an unrelated key survives
annotation with its value intact. -/
theorem response_preserves_other_meta_witness :
    ∃ m, responseOnCallTool "prometheus-mcp-server" "1.0.0"
          (fun _ : Unit =>
            (Except.ok (some ⟨(), some [("keep", MetaEntry.other 7)]⟩) :
              Except String (Option (ToolCallResult Unit Nat))))
          () 0 1
        = Except.ok (some { payload := (), meta := some m })
      ∧ dictGet "keep" m = dictGet "keep" [("keep", MetaEntry.other 7)] :=
  response_preserves_other_meta "prometheus-mcp-server" "1.0.0"
    (fun _ : Unit =>
      (Except.ok (some ⟨(), some [("keep", MetaEntry.other 7)]⟩) :
        Except String (Option (ToolCallResult Unit Nat))))
    () 0 1 ⟨(), some [("keep", MetaEntry.other 7)]⟩ [("keep", MetaEntry.other 7)]
    "keep" rfl rfl (by decide) (by decide)

end PrometheusMcp
